import Mathlib

/-! Notification dispatcher of the Jenkins operator (`internal/notifier/sender.go`).

A shallow embedding of `Listen`, `notify` and `getStatusColor`.

* The channel `chan *Notification`, closed by its producers, is the finite list of the
  requests it delivers, in arrival order; every element is a (non-nil) request.
* The backends' `Send` methods perform network calls and live outside `sender.go`; they are
  a parameter `Send` that reads and updates an abstract world `σ` and returns Go's `error`
  (`none` is `nil`).
* The observable effects of `Listen` (backend `Send` invocations and logger calls) are
  recorded, in order, in the `events` trace of the state.
-/

namespace v1alpha2

/-- Modelled from the spec: the declaration of the API type `v1alpha2.Notification` (package
`pkg/apis/jenkins/v1alpha2`) is not part of `sender.go`. Only the fields `sender.go` reads are
kept: `Name` and the three backend sub-configs. The sub-config types `v1alpha2.Slack`,
`v1alpha2.Teams` and `v1alpha2.Mailgun` are the parameters `S`, `T`, `M`: comparable struct
types (`DecidableEq`) whose zero value `T{}` is `default`. -/
structure Notification (S T M : Type) where
  Name : String
  Slack : S
  Teams : T
  Mailgun : M

/-- Modelled from the spec: `v1alpha2.JenkinsSpec`, of which `sender.go` reads only the field
`Notification`. -/
structure JenkinsSpec (S T M : Type) where
  Notification : v1alpha2.Notification S T M

/-- Modelled from the spec: `v1alpha2.Jenkins`, the owning resource: its identity (name,
namespace) and its `Spec`. -/
structure Jenkins (S T M : Type) where
  Name : String
  Namespace : String
  Spec : v1alpha2.JenkinsSpec S T M

end v1alpha2

namespace log

/-- Modelled from the spec: the verbosity constants `log.VWarn` and `log.VDebug` of package
`pkg/log`, the two levels (warning, debug) the dispatcher logs at. -/
inductive Level where
  | VWarn
  | VDebug
deriving DecidableEq, Repr

end log

namespace notifier

/-- Go: `type LoggingLevel string`. -/
abbrev LoggingLevel := String

/-- Go: `type StatusColor string`. -/
abbrev StatusColor := String

/-- Go: `LogWarn LoggingLevel = "warn"`. -/
def LogWarn : LoggingLevel := "warn"

/-- Go: `LogInfo LoggingLevel = "info"`. -/
def LogInfo : LoggingLevel := "info"

/-- Go: `type Information struct`. -/
structure Information where
  ConfigurationType : String
  Namespace : String
  CrName : String
  LogLevel : LoggingLevel
  Message : String
  MessageVerbose : String
deriving DecidableEq, Repr

/-- Go: `type Notification struct`. The Kubernetes client and the logger are handles. -/
structure Notification (S T M : Type) where
  Jenkins : v1alpha2.Jenkins S T M
  K8sClient : String
  Logger : String
  Information : notifier.Information

/-- A non-nil Go `error`, carried as its rendering under the verb `%+v`. -/
structure GoError where
  detail : String
deriving DecidableEq, Repr

/-- The dynamic type of a value of the interface `service`: one of the three backends of this
package, or anything else (another implementation, or the nil interface). -/
inductive service where
  | Slack
  | Teams
  | Mailgun
  | other (typeName : String)
deriving DecidableEq, Repr

/-- What `Listen` does to the outside, in order: a call `svc.Send(i, config)`, or a call
`logger.V(v).Info(msg)`. -/
inductive Event (S T M : Type) where
  | send (svc : service) (i : Notification S T M) (config : v1alpha2.Notification S T M)
  | info (logger : String) (v : log.Level) (msg : String)

/-- The world the backends act on, and the trace of events so far (oldest first). -/
structure State (σ S T M : Type) where
  world : σ
  events : List (Event S T M)

/-- The type of the method `Send(i *Notification, config v1alpha2.Notification) error` of the
interface `service`, dispatched on the backend value, acting on the world. -/
abbrev SendFn (σ S T M : Type) :=
  service → Notification S T M → v1alpha2.Notification S T M → σ → Option GoError × σ

/-- One logger call `logger.V(v).Info(msg)`. -/
def logInfo {σ S T M : Type} (st : State σ S T M) (logger : String) (v : log.Level)
    (msg : String) : State σ S T M :=
  { st with events := st.events ++ [Event.info logger v msg] }

/-- One method call `s.Send(i, config)`: the call is recorded, the backend acts on the world. -/
def callSend {σ S T M : Type} (Send : SendFn σ S T M) (s : service) (i : Notification S T M)
    (config : v1alpha2.Notification S T M) (st : State σ S T M) :
    Option GoError × State σ S T M :=
  let r := Send s i config st.world
  (r.1, { world := r.2, events := st.events ++ [Event.send s i config] })

/-- Go: `func notify(svc service, n *Notification, nc v1alpha2.Notification) error`. -/
def notify {σ S T M : Type} (Send : SendFn σ S T M) (svc : service) (n : Notification S T M)
    (nc : v1alpha2.Notification S T M) (st : State σ S T M) :
    Option GoError × State σ S T M :=
  match svc with
  | service.Slack => callSend Send service.Slack n nc st
  | service.Teams => callSend Send service.Teams n nc st
  | service.Mailgun => callSend Send service.Mailgun n nc st
  | service.other _ => (none, st)

/-- The `if`/`else if` chain of `Listen` that sets `svc`; `none` is the final `else`. -/
def selectService {S T M : Type} [DecidableEq S] [DecidableEq T] [DecidableEq M]
    [Inhabited S] [Inhabited T] [Inhabited M]
    (notificationConfig : v1alpha2.Notification S T M) : Option service :=
  if notificationConfig.Slack ≠ default then some service.Slack
  else if notificationConfig.Teams ≠ default then some service.Teams
  else if notificationConfig.Mailgun ≠ default then some service.Mailgun
  else none

/-- The body of the `for n := range notification` loop of `Listen`. -/
def listenBody {σ S T M : Type} [DecidableEq S] [DecidableEq T] [DecidableEq M]
    [Inhabited S] [Inhabited T] [Inhabited M]
    (Send : SendFn σ S T M) (n : Notification S T M) (st : State σ S T M) : State σ S T M :=
  let notificationConfig := n.Jenkins.Spec.Notification
  match selectService notificationConfig with
  | none =>
    logInfo st n.Logger log.Level.VWarn
      ("Notification service in `" ++ notificationConfig.Name ++ "` not found or not defined")
  | some svc =>
    let r := notify Send svc n notificationConfig st
    match r.1 with
    | some err => logInfo r.2 n.Logger log.Level.VWarn ("Failed to send notifications. " ++ err.detail)
    | none => logInfo r.2 n.Logger log.Level.VDebug "Sent notification"

/-- Go: `func Listen(notification chan *Notification)`, on a channel that delivers the given
requests and is then closed. -/
def Listen {σ S T M : Type} [DecidableEq S] [DecidableEq T] [DecidableEq M]
    [Inhabited S] [Inhabited T] [Inhabited M]
    (Send : SendFn σ S T M) : List (Notification S T M) → State σ S T M → State σ S T M
  | [], st => st
  | n :: rest, st => Listen Send rest (listenBody Send n st)

/-- Go: `func getStatusColor(logLevel LoggingLevel, svc service) StatusColor`. -/
def getStatusColor (logLevel : LoggingLevel) (svc : service) : StatusColor :=
  match svc with
  | service.Slack =>
    if logLevel = LogInfo then "#439FE0"
    else if logLevel = LogWarn then "danger"
    else "#c8c8c8"
  | service.Teams =>
    if logLevel = LogInfo then "439FE0"
    else if logLevel = LogWarn then "E81123"
    else "C8C8C8"
  | service.Mailgun =>
    if logLevel = LogInfo then "blue"
    else if logLevel = LogWarn then "red"
    else "gray"
  | service.other _ => "#c8c8c8"

/-! ## Vocabulary of the statements -/

/-- A hexadecimal digit, in either case. -/
def isHexDigit (c : Char) : Bool :=
  c.isDigit || (decide ('a' ≤ c) && decide (c ≤ 'f')) || (decide ('A' ≤ c) && decide (c ≤ 'F'))

/-- Hex-with-hash encoding: a `#` followed by exactly six hexadecimal digits. -/
def hexWithHash (c : StatusColor) : Bool :=
  match c.toList with
  | '#' :: digits => decide (digits.length = 6) && digits.all isHexDigit
  | _ => false

/-- Hex-without-hash encoding: exactly six hexadecimal digits. -/
def hexWithoutHash (c : StatusColor) : Bool :=
  decide (c.toList.length = 6) && c.toList.all isHexDigit

/-- The backends whose `Send` was invoked, in order of invocation. -/
def sentServices {S T M : Type} : List (Event S T M) → List service
  | [] => []
  | Event.send svc _ _ :: rest => svc :: sentServices rest
  | Event.info _ _ _ :: rest => sentServices rest

/-- The `Send` invocations of a trace with their arguments, in order of invocation. -/
def sendCalls {S T M : Type} :
    List (Event S T M) → List (service × Notification S T M × v1alpha2.Notification S T M)
  | [] => []
  | Event.send svc i config :: rest => (svc, i, config) :: sendCalls rest
  | Event.info _ _ _ :: rest => sendCalls rest

/-- The logger calls of a trace, in order. -/
def logEntries {S T M : Type} : List (Event S T M) → List (String × log.Level × String)
  | [] => []
  | Event.send _ _ _ :: rest => logEntries rest
  | Event.info logger v msg :: rest => (logger, v, msg) :: logEntries rest

/-- Some backend sub-config of the request differs from its zero value. -/
def populated {S T M : Type} [DecidableEq S] [DecidableEq T] [DecidableEq M]
    [Inhabited S] [Inhabited T] [Inhabited M] (n : Notification S T M) : Bool :=
  decide (n.Jenkins.Spec.Notification.Slack ≠ default) ||
  decide (n.Jenkins.Spec.Notification.Teams ≠ default) ||
  decide (n.Jenkins.Spec.Notification.Mailgun ≠ default)

/-- An assignment of outcomes to the backend `Send` calls, as an environment: the world is the
number of `Send` calls made so far, and call number `k` (from 0) returns `outcome k`. -/
def scriptedSend {S T M : Type} (outcome : Nat → Option GoError) : SendFn Nat S T M :=
  fun _ _ _ k => (outcome k, k + 1)

/-- A concrete request for instances of the statements: the sub-config types are `Nat`
(zero value `0`). -/
def sampleRequest (name : String) (slack teams mailgun : Nat) : Notification Nat Nat Nat :=
  { Jenkins :=
      { Name := "jenkins"
        Namespace := "ci"
        Spec := { Notification := { Name := name, Slack := slack, Teams := teams,
                                    Mailgun := mailgun } } }
    K8sClient := "client"
    Logger := "logger"
    Information :=
      { ConfigurationType := "base", Namespace := "ci", CrName := "jenkins", LogLevel := LogWarn,
        Message := "disk pressure", MessageVerbose := "" } }

/-- A concrete assignment of outcomes: the first `Send` call fails, every later one succeeds. -/
def firstCallFails : Nat → Option GoError
  | 0 => some { detail := "connection refused" }
  | _ + 1 => none

/-- The three classes of logging level that `getStatusColor` tells apart. -/
inductive SeverityClass where
  | info
  | warn
  | other
deriving DecidableEq, Repr

/-- The class of a logging level: `LogInfo`, `LogWarn`, or any other string. -/
def severityClass (logLevel : LoggingLevel) : SeverityClass :=
  if logLevel = LogInfo then SeverityClass.info
  else if logLevel = LogWarn then SeverityClass.warn
  else SeverityClass.other

/-- Which of the sub-configs Slack, Teams, Mailgun of a config equal their zero value. -/
def emptinessPattern {S T M : Type} [DecidableEq S] [DecidableEq T] [DecidableEq M]
    [Inhabited S] [Inhabited T] [Inhabited M]
    (nc : v1alpha2.Notification S T M) : Bool × Bool × Bool :=
  (decide (nc.Slack = default), decide (nc.Teams = default), decide (nc.Mailgun = default))

/-- The channel `notification` as the consumer sees it: the requests sent and not yet
received, oldest first, and whether the producers have closed it. -/
structure Chan (S T M : Type) where
  queue : List (Notification S T M)
  closed : Bool

/-- How far a run of `Listen` got: the requests received from the channel so far, in order,
and the state reached. `returned`: the `range` loop ended and `Listen` returned. `blocked`:
the receive waits on an empty channel that is still open. `running`: the bound on the number
of loop steps was reached first. -/
inductive Run (σ S T M : Type) where
  | returned (handled : List (Notification S T M)) (st : State σ S T M)
  | blocked (handled : List (Notification S T M)) (st : State σ S T M)
  | running (handled : List (Notification S T M)) (st : State σ S T M)

/-- Go: `for n := range notification { ... }` of `Listen`, run for at most `steps` evaluations
of the loop head. Each evaluation receives the oldest request and runs the body on it, or
ends the loop when the channel is closed and drained, or blocks when it is empty and open. -/
def ListenRun {σ S T M : Type} [DecidableEq S] [DecidableEq T] [DecidableEq M]
    [Inhabited S] [Inhabited T] [Inhabited M] (Send : SendFn σ S T M) :
    Nat → Chan S T M → List (Notification S T M) → State σ S T M → Run σ S T M
  | 0, _, handled, st => Run.running handled st
  | steps + 1, ch, handled, st =>
    match ch.queue with
    | n :: rest =>
      ListenRun Send steps { queue := rest, closed := ch.closed } (handled ++ [n])
        (listenBody Send n st)
    | [] => if ch.closed then Run.returned handled st else Run.blocked handled st

/-- The queue `q` is an interleaving of the sequences `xs` and `ys` enqueued by two producers:
each producer's requests enter in its own order, interleaved in any way. -/
inductive Interleaving {α : Type} : List α → List α → List α → Prop where
  | done : Interleaving [] [] []
  | first (x : α) {xs ys q : List α} :
      Interleaving xs ys q → Interleaving (x :: xs) ys (x :: q)
  | second (y : α) {xs ys q : List α} :
      Interleaving xs ys q → Interleaving xs (y :: ys) (y :: q)

/-- The logger call `entry` (logger, level, text) is one `Listen` makes for the request `n`:
through the request's logger, and either the unresolved-config warning (no sub-config
populated), or, with a backend selected, the delivery-failure warning or the delivery-success
debug entry. -/
def isLogEntryOf {S T M : Type} [DecidableEq S] [DecidableEq T] [DecidableEq M]
    [Inhabited S] [Inhabited T] [Inhabited M]
    (n : Notification S T M) (entry : String × log.Level × String) : Prop :=
  entry.1 = n.Logger ∧
  ((populated n = false ∧
      entry.2 = (log.Level.VWarn,
        "Notification service in `" ++ n.Jenkins.Spec.Notification.Name ++
          "` not found or not defined")) ∨
   (populated n = true ∧
      ((∃ err : GoError,
          entry.2 = (log.Level.VWarn, "Failed to send notifications. " ++ err.detail)) ∨
       entry.2 = (log.Level.VDebug, "Sent notification"))))

/-- Spec, section 4.1, for one request and the outcome of its delivery. The backend is that of
the first populated sub-config in the order chat webhook (Slack), enterprise chat webhook
(Teams), email (Mailgun); its delivery operation is invoked with the request and its config;
a failure is logged at warning level with the error detail, a success at debug level. With no
sub-config populated, a warning naming the config is logged and nothing is delivered. -/
def specRequestEvents {S T M : Type} [DecidableEq S] [DecidableEq T] [DecidableEq M]
    [Inhabited S] [Inhabited T] [Inhabited M]
    (n : Notification S T M) (outcome : Option GoError) : List (Event S T M) :=
  let outcomeEntry : Event S T M :=
    match outcome with
    | some err =>
      Event.info n.Logger log.Level.VWarn ("Failed to send notifications. " ++ err.detail)
    | none => Event.info n.Logger log.Level.VDebug "Sent notification"
  if n.Jenkins.Spec.Notification.Slack ≠ default then
    [Event.send service.Slack n n.Jenkins.Spec.Notification, outcomeEntry]
  else if n.Jenkins.Spec.Notification.Teams ≠ default then
    [Event.send service.Teams n n.Jenkins.Spec.Notification, outcomeEntry]
  else if n.Jenkins.Spec.Notification.Mailgun ≠ default then
    [Event.send service.Mailgun n n.Jenkins.Spec.Notification, outcomeEntry]
  else
    [Event.info n.Logger log.Level.VWarn
      ("Notification service in `" ++ n.Jenkins.Spec.Notification.Name ++
        "` not found or not defined")]

/-- Spec, section 4.1, for a queue: every request is handled in arrival order, whatever the
outcomes before it. `outcome` assigns outcomes to the deliveries and `k` is the number of the
next delivery; only a request with a populated sub-config uses one up. -/
def specTrace {S T M : Type} [DecidableEq S] [DecidableEq T] [DecidableEq M]
    [Inhabited S] [Inhabited T] [Inhabited M]
    (outcome : Nat → Option GoError) : Nat → List (Notification S T M) → List (Event S T M)
  | _, [] => []
  | k, n :: rest =>
    specRequestEvents n (outcome k) ++
      specTrace outcome (k + (if populated n = true then 1 else 0)) rest

/-- The items attributed to producer `p`, in order, when `tags` tells for each position of
`items` which producer enqueued the item at that position. Two producers may enqueue equal
requests; the position keeps them apart. -/
def ofProducer {α : Type} (p : Bool) (tags : List Bool) (items : List α) : List α :=
  ((tags.zip items).filter (fun t => t.1 == p)).map Prod.snd

/-! ## The severity colour mapper -/

/-- C5: `getStatusColor` returns "danger" for (LogWarn, Slack), "#439FE0" for (LogInfo, Slack),
"E81123" for (LogWarn, Teams) and "blue" for (LogInfo, Mailgun). -/
theorem C5_getStatusColor_table :
    getStatusColor LogWarn service.Slack = "danger" ∧
    getStatusColor LogInfo service.Slack = "#439FE0" ∧
    getStatusColor LogWarn service.Teams = "E81123" ∧
    getStatusColor LogInfo service.Mailgun = "blue" := by
  refine ⟨?_, ?_, ?_, ?_⟩ <;> decide

/-- C6: for every logging level other than "info" and "warn", `getStatusColor` returns the
neutral token of the variant: "#c8c8c8" for Slack, "C8C8C8" for Teams, "gray" for Mailgun. -/
theorem C6_getStatusColor_neutral (logLevel : LoggingLevel)
    (hInfo : logLevel ≠ LogInfo) (hWarn : logLevel ≠ LogWarn) :
    getStatusColor logLevel service.Slack = "#c8c8c8" ∧
    getStatusColor logLevel service.Teams = "C8C8C8" ∧
    getStatusColor logLevel service.Mailgun = "gray" := by
  simp [getStatusColor, hInfo, hWarn]

/-- Witness of C6 at the differently-cased spelling "INFO". -/
theorem C6_getStatusColor_neutral_witness :
    ("INFO" ≠ LogInfo ∧ "INFO" ≠ LogWarn) ∧
    getStatusColor "INFO" service.Slack = "#c8c8c8" ∧
    getStatusColor "INFO" service.Teams = "C8C8C8" ∧
    getStatusColor "INFO" service.Mailgun = "gray" :=
  ⟨⟨by decide, by decide⟩, C6_getStatusColor_neutral "INFO" (by decide) (by decide)⟩

/-- C8 fails as stated: for the level LogWarn the Slack colour is the named token "danger",
which is not a `#` followed by six hexadecimal digits. -/
theorem C8_slack_warn_not_hex : hexWithHash (getStatusColor LogWarn service.Slack) = false := by
  decide

/-- C8 (amended): for every logging level other than LogWarn, the colour `getStatusColor`
returns for Slack is a `#` followed by six hexadecimal digits; for LogWarn it is the named
token "danger". -/
theorem C8_slack_hex_with_hash_except_warn (logLevel : LoggingLevel) :
    (logLevel ≠ LogWarn → hexWithHash (getStatusColor logLevel service.Slack) = true) ∧
    (logLevel = LogWarn → getStatusColor logLevel service.Slack = "danger") := by
  constructor
  · intro hWarn
    by_cases hInfo : logLevel = LogInfo
    · subst hInfo; decide
    · have h : getStatusColor logLevel service.Slack = "#c8c8c8" := by
        simp [getStatusColor, hInfo, hWarn]
      rw [h]; decide
  · intro hWarn
    subst hWarn; decide

/-- Witness of C8 (amended) at the levels "info" and "warn". -/
theorem C8_slack_hex_with_hash_except_warn_witness :
    ("info" ≠ LogWarn ∧ hexWithHash (getStatusColor "info" service.Slack) = true) ∧
    ("warn" = LogWarn ∧ getStatusColor "warn" service.Slack = "danger") :=
  ⟨⟨by decide, (C8_slack_hex_with_hash_except_warn "info").1 (by decide)⟩,
   ⟨by decide, (C8_slack_hex_with_hash_except_warn "warn").2 (by decide)⟩⟩

/-- C9: for every logging level, the colour `getStatusColor` returns for Teams is exactly six
hexadecimal digits, with no leading `#`. -/
theorem C9_teams_hex_without_hash (logLevel : LoggingLevel) :
    hexWithoutHash (getStatusColor logLevel service.Teams) = true ∧
    (getStatusColor logLevel service.Teams).toList.head? ≠ some '#' := by
  by_cases hInfo : logLevel = LogInfo
  · subst hInfo; decide
  · by_cases hWarn : logLevel = LogWarn
    · subst hWarn; decide
    · have h : getStatusColor logLevel service.Teams = "C8C8C8" := by
        simp [getStatusColor, hInfo, hWarn]
      rw [h]; decide

/-- C14: for every service value that is none of Slack, Teams, Mailgun, and for every logging
level, `getStatusColor` returns the neutral token "#c8c8c8". -/
theorem C14_getStatusColor_unknown_service (logLevel : LoggingLevel) (svc : service)
    (hSlack : svc ≠ service.Slack) (hTeams : svc ≠ service.Teams)
    (hMailgun : svc ≠ service.Mailgun) :
    getStatusColor logLevel svc = "#c8c8c8" := by
  cases svc with
  | Slack => exact absurd rfl hSlack
  | Teams => exact absurd rfl hTeams
  | Mailgun => exact absurd rfl hMailgun
  | other typeName => rfl

/-- Witness of C14 at a fourth backend type and the level "warn". -/
theorem C14_getStatusColor_unknown_service_witness :
    (service.other "Discord" ≠ service.Slack ∧ service.other "Discord" ≠ service.Teams ∧
      service.other "Discord" ≠ service.Mailgun) ∧
    getStatusColor "warn" (service.other "Discord") = "#c8c8c8" :=
  ⟨⟨by decide, by decide, by decide⟩,
   C14_getStatusColor_unknown_service "warn" (service.other "Discord")
     (by decide) (by decide) (by decide)⟩

/-- C15: within each of Slack, Teams and Mailgun, the tokens `getStatusColor` returns for
LogInfo, for LogWarn and for any other level are pairwise distinct, so equal tokens of one
such variant come from levels of the same severity class. -/
theorem C15_tokens_distinct_within_variant (svc : service)
    (hsvc : svc = service.Slack ∨ svc = service.Teams ∨ svc = service.Mailgun) :
    (∀ otherLevel : LoggingLevel, otherLevel ≠ LogInfo → otherLevel ≠ LogWarn →
      getStatusColor LogInfo svc ≠ getStatusColor LogWarn svc ∧
      getStatusColor LogInfo svc ≠ getStatusColor otherLevel svc ∧
      getStatusColor LogWarn svc ≠ getStatusColor otherLevel svc) ∧
    (∀ l₁ l₂ : LoggingLevel, getStatusColor l₁ svc = getStatusColor l₂ svc →
      severityClass l₁ = severityClass l₂) := by
  constructor
  · intro otherLevel hInfo hWarn
    have hwi : LogWarn ≠ LogInfo := by decide
    rcases hsvc with h | h | h <;> subst h <;>
      simp [getStatusColor, hInfo, hWarn, hwi]
  · intro l₁ l₂
    rcases hsvc with h | h | h <;> subst h <;>
      simp only [getStatusColor, severityClass] <;>
      split_ifs <;> simp

/-- Witness of C15 for Slack and the unmapped level "debug". -/
theorem C15_tokens_distinct_within_variant_witness :
    (service.Slack = service.Slack ∨ service.Slack = service.Teams ∨
      service.Slack = service.Mailgun) ∧
    ("debug" ≠ LogInfo ∧ "debug" ≠ LogWarn) ∧
    getStatusColor LogInfo service.Slack ≠ getStatusColor LogWarn service.Slack ∧
    getStatusColor LogInfo service.Slack ≠ getStatusColor "debug" service.Slack ∧
    getStatusColor LogWarn service.Slack ≠ getStatusColor "debug" service.Slack :=
  ⟨Or.inl rfl, ⟨by decide, by decide⟩,
   (C15_tokens_distinct_within_variant service.Slack (Or.inl rfl)).1 "debug"
     (by decide) (by decide)⟩

/-! ## The consumer loop: auxiliary facts -/

theorem sentServices_append {S T M : Type} (xs ys : List (Event S T M)) :
    sentServices (xs ++ ys) = sentServices xs ++ sentServices ys := by
  induction xs with
  | nil => rfl
  | cons e rest ih => cases e <;> simp [sentServices, ih]

theorem sendCalls_append {S T M : Type} (xs ys : List (Event S T M)) :
    sendCalls (xs ++ ys) = sendCalls xs ++ sendCalls ys := by
  induction xs with
  | nil => rfl
  | cons e rest ih => cases e <;> simp [sendCalls, ih]

theorem logEntries_append {S T M : Type} (xs ys : List (Event S T M)) :
    logEntries (xs ++ ys) = logEntries xs ++ logEntries ys := by
  induction xs with
  | nil => rfl
  | cons e rest ih => cases e <;> simp [logEntries, ih]

section Loop

variable {σ S T M : Type} [DecidableEq S] [DecidableEq T] [DecidableEq M]
  [Inhabited S] [Inhabited T] [Inhabited M]

theorem selectService_eq_none_iff (nc : v1alpha2.Notification S T M) :
    selectService nc = none ↔
      nc.Slack = default ∧ nc.Teams = default ∧ nc.Mailgun = default := by
  unfold selectService
  split_ifs <;> simp_all

theorem selectService_eq_some_iff (nc : v1alpha2.Notification S T M) (svc : service) :
    selectService nc = some svc ↔
      (nc.Slack ≠ default ∧ svc = service.Slack) ∨
      (nc.Slack = default ∧ nc.Teams ≠ default ∧ svc = service.Teams) ∨
      (nc.Slack = default ∧ nc.Teams = default ∧ nc.Mailgun ≠ default ∧
        svc = service.Mailgun) := by
  unfold selectService
  split_ifs <;> simp_all [eq_comm]

theorem populated_iff_selectService (n : Notification S T M) :
    populated n = true ↔ ∃ svc, selectService n.Jenkins.Spec.Notification = some svc := by
  cases h : selectService n.Jenkins.Spec.Notification with
  | none =>
    have h3 := (selectService_eq_none_iff _).1 h
    simp [populated, h3.1, h3.2.1, h3.2.2]
  | some svc =>
    have h3 := (selectService_eq_some_iff _ _).1 h
    rcases h3 with h1 | h1 | h1 <;> simp [populated, h1]

theorem notify_selected (Send : SendFn σ S T M) (n : Notification S T M)
    (nc : v1alpha2.Notification S T M) (cfg : v1alpha2.Notification S T M) (svc : service)
    (st : State σ S T M) (h : selectService nc = some svc) :
    notify Send svc n cfg st = callSend Send svc n cfg st := by
  rcases (selectService_eq_some_iff _ _).1 h with h1 | h1 | h1
  · rw [h1.2]; rfl
  · rw [h1.2.2]; rfl
  · rw [h1.2.2.2]; rfl

theorem listenBody_unresolved (Send : SendFn σ S T M) (n : Notification S T M)
    (st : State σ S T M) (h : selectService n.Jenkins.Spec.Notification = none) :
    listenBody Send n st =
      logInfo st n.Logger log.Level.VWarn
        ("Notification service in `" ++ n.Jenkins.Spec.Notification.Name ++
          "` not found or not defined") := by
  simp only [listenBody, h]

theorem listenBody_selected (Send : SendFn σ S T M) (n : Notification S T M)
    (st : State σ S T M) (svc : service)
    (h : selectService n.Jenkins.Spec.Notification = some svc) :
    listenBody Send n st =
      match (Send svc n n.Jenkins.Spec.Notification st.world).1 with
      | some err =>
        { world := (Send svc n n.Jenkins.Spec.Notification st.world).2
          events := st.events ++ [Event.send svc n n.Jenkins.Spec.Notification,
            Event.info n.Logger log.Level.VWarn
              ("Failed to send notifications. " ++ err.detail)] }
      | none =>
        { world := (Send svc n n.Jenkins.Spec.Notification st.world).2
          events := st.events ++ [Event.send svc n n.Jenkins.Spec.Notification,
            Event.info n.Logger log.Level.VDebug "Sent notification"] } := by
  simp only [listenBody, h, notify_selected Send n _ _ svc st h, callSend, logInfo]
  cases (Send svc n n.Jenkins.Spec.Notification st.world).1 <;> simp

theorem Listen_append (Send : SendFn σ S T M) (q₁ q₂ : List (Notification S T M))
    (st : State σ S T M) :
    Listen Send (q₁ ++ q₂) st = Listen Send q₂ (Listen Send q₁ st) := by
  induction q₁ generalizing st with
  | nil => rfl
  | cons n rest ih => exact ih (listenBody Send n st)

theorem Listen_snoc (Send : SendFn σ S T M) (q : List (Notification S T M))
    (n : Notification S T M) (st : State σ S T M) :
    Listen Send (q ++ [n]) st = listenBody Send n (Listen Send q st) := by
  rw [Listen_append]; rfl

/-- The loop body reads the world only: the trace so far is carried along untouched. -/
theorem listenBody_frame (Send : SendFn σ S T M) (n : Notification S T M)
    (st : State σ S T M) :
    listenBody Send n st =
      { world := (listenBody Send n { world := st.world, events := [] }).world
        events := st.events ++ (listenBody Send n { world := st.world, events := [] }).events } := by
  cases h : selectService n.Jenkins.Spec.Notification with
  | none =>
    rw [listenBody_unresolved Send n _ h, listenBody_unresolved Send n _ h]
    simp [logInfo]
  | some svc =>
    rw [listenBody_selected Send n _ svc h, listenBody_selected Send n _ svc h]
    cases (Send svc n n.Jenkins.Spec.Notification st.world).1 <;> simp

theorem Listen_frame (Send : SendFn σ S T M) (q : List (Notification S T M))
    (st : State σ S T M) :
    Listen Send q st =
      { world := (Listen Send q { world := st.world, events := [] }).world
        events := st.events ++ (Listen Send q { world := st.world, events := [] }).events } := by
  induction q generalizing st with
  | nil => simp [Listen]
  | cons n rest ih =>
    simp only [Listen]
    rw [ih (listenBody Send n st), ih (listenBody Send n { world := st.world, events := [] })]
    rw [listenBody_frame Send n st]
    simp [List.append_assoc]

theorem sendCalls_listenBody (Send : SendFn σ S T M) (n : Notification S T M)
    (st : State σ S T M) :
    sendCalls (listenBody Send n st).events =
      sendCalls st.events ++
        (match selectService n.Jenkins.Spec.Notification with
         | some svc => [(svc, n, n.Jenkins.Spec.Notification)]
         | none => []) := by
  cases h : selectService n.Jenkins.Spec.Notification with
  | none =>
    rw [listenBody_unresolved Send n _ h]
    simp [logInfo, sendCalls_append, sendCalls]
  | some svc =>
    rw [listenBody_selected Send n _ svc h]
    cases (Send svc n n.Jenkins.Spec.Notification st.world).1 <;>
      simp [sendCalls_append, sendCalls]

/-- Under an assignment of outcomes the world counts the `Send` calls: one more for a request
with a selected backend, unchanged for an unresolved one. -/
theorem scripted_listenBody_world (o : Nat → Option GoError) (n : Notification S T M)
    (st : State Nat S T M) :
    (listenBody (scriptedSend o) n st).world =
      st.world + (if selectService n.Jenkins.Spec.Notification = none then 0 else 1) := by
  cases h : selectService n.Jenkins.Spec.Notification with
  | none => rw [listenBody_unresolved _ n _ h]; simp [logInfo]
  | some svc =>
    rw [listenBody_selected _ n _ svc h]
    cases (scriptedSend o svc n n.Jenkins.Spec.Notification st.world).1 <;>
      simp [scriptedSend]

theorem scripted_world_mono (o : Nat → Option GoError) (q : List (Notification S T M))
    (st : State Nat S T M) : st.world ≤ (Listen (scriptedSend o) q st).world := by
  induction q generalizing st with
  | nil => exact le_refl _
  | cons n rest ih =>
    have h1 := ih (listenBody (scriptedSend o) n st)
    have h2 := scripted_listenBody_world o n st
    show st.world ≤ (Listen (scriptedSend o) rest (listenBody (scriptedSend o) n st)).world
    omega

theorem scripted_listenBody_congr (o o' : Nat → Option GoError) (n : Notification S T M)
    (st : State Nat S T M)
    (h : selectService n.Jenkins.Spec.Notification ≠ none → o' st.world = o st.world) :
    listenBody (scriptedSend o') n st = listenBody (scriptedSend o) n st := by
  cases hs : selectService n.Jenkins.Spec.Notification with
  | none => rw [listenBody_unresolved _ n _ hs, listenBody_unresolved _ n _ hs]
  | some svc =>
    have h' : o' st.world = o st.world := h (by simp [hs])
    rw [listenBody_selected _ n _ svc hs, listenBody_selected _ n _ svc hs]
    simp [scriptedSend, h']

/-- A run depends on the assignment of outcomes only at the calls it makes. -/
theorem scripted_Listen_congr (o o' : Nat → Option GoError) (q : List (Notification S T M))
    (st : State Nat S T M)
    (h : ∀ j, st.world ≤ j → j < (Listen (scriptedSend o) q st).world → o' j = o j) :
    Listen (scriptedSend o') q st = Listen (scriptedSend o) q st := by
  induction q generalizing st with
  | nil => rfl
  | cons n rest ih =>
    have hmono := scripted_world_mono o rest (listenBody (scriptedSend o) n st)
    have hw := scripted_listenBody_world o n st
    have hbody : listenBody (scriptedSend o') n st = listenBody (scriptedSend o) n st := by
      apply scripted_listenBody_congr
      intro hsel
      apply h _ (le_refl _)
      show st.world < (Listen (scriptedSend o) rest (listenBody (scriptedSend o) n st)).world
      rw [if_neg hsel] at hw
      omega
    show Listen (scriptedSend o') rest (listenBody (scriptedSend o') n st) =
      Listen (scriptedSend o) rest (listenBody (scriptedSend o) n st)
    rw [hbody]
    apply ih
    intro j hj1 hj2
    apply h j _ hj2
    have : st.world ≤ (listenBody (scriptedSend o) n st).world := by rw [hw]; omega
    omega

theorem sentServices_listenBody (Send : SendFn σ S T M) (n : Notification S T M)
    (st : State σ S T M) :
    sentServices (listenBody Send n st).events =
      sentServices st.events ++ (selectService n.Jenkins.Spec.Notification).toList := by
  cases h : selectService n.Jenkins.Spec.Notification with
  | none =>
    rw [listenBody_unresolved Send n _ h]
    simp [logInfo, sentServices_append, sentServices]
  | some svc =>
    rw [listenBody_selected Send n _ svc h]
    cases (Send svc n n.Jenkins.Spec.Notification st.world).1 <;>
      simp [sentServices_append, sentServices]

theorem selectService_congr (nc₁ nc₂ : v1alpha2.Notification S T M)
    (h : emptinessPattern nc₁ = emptinessPattern nc₂) :
    selectService nc₁ = selectService nc₂ := by
  simp only [emptinessPattern, Prod.mk.injEq, decide_eq_decide] at h
  obtain ⟨h1, h2, h3⟩ := h
  simp only [selectService, ne_eq, h1, h2, h3]

theorem populated_eq_false_iff (n : Notification S T M) :
    populated n = false ↔ selectService n.Jenkins.Spec.Notification = none := by
  cases hp : populated n with
  | true =>
    obtain ⟨svc, hs⟩ := (populated_iff_selectService n).1 hp
    simp [hs]
  | false =>
    cases hs : selectService n.Jenkins.Spec.Notification with
    | none => simp
    | some svc =>
      have := (populated_iff_selectService n).2 ⟨svc, hs⟩
      rw [hp] at this; cases this

/-- Each execution of the loop body makes exactly one logger call, of one of the three kinds. -/
theorem logEntries_listenBody (Send : SendFn σ S T M) (n : Notification S T M)
    (st : State σ S T M) :
    ∃ entry, logEntries (listenBody Send n st).events = logEntries st.events ++ [entry] ∧
      isLogEntryOf n entry := by
  cases h : selectService n.Jenkins.Spec.Notification with
  | none =>
    have hp : populated n = false := (populated_eq_false_iff n).2 h
    refine ⟨(n.Logger, log.Level.VWarn,
      "Notification service in `" ++ n.Jenkins.Spec.Notification.Name ++
        "` not found or not defined"), ?_, rfl, Or.inl ⟨hp, rfl⟩⟩
    rw [listenBody_unresolved Send n _ h]
    simp [logInfo, logEntries_append, logEntries]
  | some svc =>
    have hp : populated n = true := (populated_iff_selectService n).2 ⟨svc, h⟩
    rw [listenBody_selected Send n _ svc h]
    cases (Send svc n n.Jenkins.Spec.Notification st.world).1 with
    | none =>
      refine ⟨(n.Logger, log.Level.VDebug, "Sent notification"), ?_, rfl,
        Or.inr ⟨hp, Or.inr rfl⟩⟩
      simp [logEntries_append, logEntries]
    | some err =>
      refine ⟨(n.Logger, log.Level.VWarn, "Failed to send notifications. " ++ err.detail),
        ?_, rfl, Or.inr ⟨hp, Or.inl ⟨err, rfl⟩⟩⟩
      simp [logEntries_append, logEntries]

theorem sendCalls_Listen_requests (Send : SendFn σ S T M) (q : List (Notification S T M))
    (st : State σ S T M) :
    (sendCalls (Listen Send q st).events).map (fun call => call.2.1) =
      (sendCalls st.events).map (fun call => call.2.1) ++ q.filter populated := by
  induction q generalizing st with
  | nil => simp [Listen]
  | cons n rest ih =>
    show (sendCalls (Listen Send rest (listenBody Send n st)).events).map _ = _
    rw [ih (listenBody Send n st), sendCalls_listenBody]
    cases h : selectService n.Jenkins.Spec.Notification with
    | none =>
      have hp : populated n = false := (populated_eq_false_iff n).2 h
      simp [List.filter, hp]
    | some svc =>
      have hp : populated n = true := (populated_iff_selectService n).2 ⟨svc, h⟩
      simp [List.filter, hp]

/-- On a closed channel, more loop steps than queued requests end the loop, with every
request received and handled. -/
theorem ListenRun_closed (Send : SendFn σ S T M) (q : List (Notification S T M)) (extra : Nat)
    (handled : List (Notification S T M)) (st : State σ S T M) :
    ListenRun Send (q.length + 1 + extra) { queue := q, closed := true } handled st =
      Run.returned (handled ++ q) (Listen Send q st) := by
  induction q generalizing handled st with
  | nil =>
    have e : ([] : List (Notification S T M)).length + 1 + extra = extra + 1 := by
      simp [Nat.add_comm]
    rw [e]
    simp [ListenRun, Listen]
  | cons n rest ih =>
    have e : (n :: rest).length + 1 + extra = (rest.length + 1 + extra) + 1 := by
      simp only [List.length_cons]; omega
    rw [e]
    simp only [ListenRun, Listen]
    rw [ih]
    simp

/-- As many loop steps as a prefix of the queue is long handle exactly that prefix. -/
theorem ListenRun_prefix (Send : SendFn σ S T M) (pre post : List (Notification S T M))
    (closed : Bool) (handled : List (Notification S T M)) (st : State σ S T M) :
    ListenRun Send pre.length { queue := pre ++ post, closed := closed } handled st =
      Run.running (handled ++ pre) (Listen Send pre st) := by
  induction pre generalizing handled st with
  | nil => simp [ListenRun, Listen]
  | cons n rest ih =>
    simp only [List.length_cons, List.cons_append, ListenRun, Listen]
    rw [ih]
    simp

theorem specRequestEvents_unresolved (n : Notification S T M) (outcome : Option GoError)
    (h : selectService n.Jenkins.Spec.Notification = none) :
    specRequestEvents n outcome =
      [Event.info n.Logger log.Level.VWarn
        ("Notification service in `" ++ n.Jenkins.Spec.Notification.Name ++
          "` not found or not defined")] := by
  obtain ⟨h1, h2, h3⟩ := (selectService_eq_none_iff _).1 h
  simp [specRequestEvents, h1, h2, h3]

theorem specRequestEvents_selected (n : Notification S T M) (outcome : Option GoError)
    (svc : service) (h : selectService n.Jenkins.Spec.Notification = some svc) :
    specRequestEvents n outcome =
      [Event.send svc n n.Jenkins.Spec.Notification,
       match outcome with
       | some err =>
         Event.info n.Logger log.Level.VWarn ("Failed to send notifications. " ++ err.detail)
       | none => Event.info n.Logger log.Level.VDebug "Sent notification"] := by
  rcases (selectService_eq_some_iff _ _).1 h with h1 | h1 | h1
  · simp [specRequestEvents, h1.1, h1.2]
  · simp [specRequestEvents, h1.1, h1.2.1, h1.2.2]
  · simp [specRequestEvents, h1.1, h1.2.1, h1.2.2.1, h1.2.2.2]

/-- Under an assignment of outcomes, the loop body emits what the spec owes the request. -/
theorem scripted_listenBody_events (o : Nat → Option GoError) (n : Notification S T M)
    (st : State Nat S T M) :
    (listenBody (scriptedSend o) n st).events =
      st.events ++ specRequestEvents n (o st.world) := by
  cases h : selectService n.Jenkins.Spec.Notification with
  | none =>
    rw [listenBody_unresolved _ n _ h, specRequestEvents_unresolved n _ h]
    rfl
  | some svc =>
    rw [listenBody_selected _ n _ svc h, specRequestEvents_selected n _ svc h]
    simp only [scriptedSend]
    cases o st.world <;> rfl

theorem scripted_listenBody_world_populated (o : Nat → Option GoError)
    (n : Notification S T M) (st : State Nat S T M) :
    (listenBody (scriptedSend o) n st).world =
      st.world + (if populated n = true then 1 else 0) := by
  rw [scripted_listenBody_world]
  cases hp : populated n with
  | true =>
    obtain ⟨svc, hs⟩ := (populated_iff_selectService n).1 hp
    simp [hs]
  | false =>
    have hs := (populated_eq_false_iff n).1 hp
    simp [hs]

/-- Under an assignment of outcomes, `Listen` emits the spec's trace of the whole queue and
makes one delivery per request with a populated sub-config. -/
theorem scripted_Listen_trace (o : Nat → Option GoError) (q : List (Notification S T M))
    (st : State Nat S T M) :
    (Listen (scriptedSend o) q st).events = st.events ++ specTrace o st.world q ∧
    (Listen (scriptedSend o) q st).world = st.world + (q.filter populated).length := by
  induction q generalizing st with
  | nil => simp [Listen, specTrace]
  | cons n rest ih =>
    obtain ⟨he, hw⟩ := ih (listenBody (scriptedSend o) n st)
    have hbe := scripted_listenBody_events o n st
    have hbw := scripted_listenBody_world_populated o n st
    constructor
    · show (Listen (scriptedSend o) rest (listenBody (scriptedSend o) n st)).events = _
      rw [he, hbe, hbw]
      simp [specTrace, List.append_assoc]
    · show (Listen (scriptedSend o) rest (listenBody (scriptedSend o) n st)).world = _
      rw [hw, hbw]
      cases hp : populated n with
      | false => simp [List.filter, hp]
      | true => simp [List.filter, hp]; omega

theorem specTrace_append (o : Nat → Option GoError) (k : Nat)
    (q₁ q₂ : List (Notification S T M)) :
    specTrace o k (q₁ ++ q₂) =
      specTrace o k q₁ ++ specTrace o (k + (q₁.filter populated).length) q₂ := by
  induction q₁ generalizing k with
  | nil => simp [specTrace]
  | cons n rest ih =>
    simp only [List.cons_append, specTrace, ih, List.append_assoc]
    cases hp : populated n with
    | false => simp [List.filter, hp, ih]
    | true =>
      have e : k + 1 + (List.filter populated rest).length =
          k + ((List.filter populated rest).length + 1) := by omega
      simp [List.filter, hp]
      rw [ih, e]

/-- The spec's trace of a queue depends on the assignment of outcomes only at the deliveries
the queue uses. -/
theorem specTrace_congr (o o' : Nat → Option GoError) (k : Nat) (q : List (Notification S T M))
    (h : ∀ j, k ≤ j → j < k + (q.filter populated).length → o' j = o j) :
    specTrace o' k q = specTrace o k q := by
  induction q generalizing k with
  | nil => rfl
  | cons n rest ih =>
    simp only [specTrace]
    cases hp : populated n with
    | false =>
      have hs := (populated_eq_false_iff n).1 hp
      rw [specRequestEvents_unresolved n _ hs, specRequestEvents_unresolved n _ hs]
      rw [ih]
      intro j hj1 hj2
      apply h j (by simpa using hj1)
      simpa [List.filter, hp] using hj2
    | true =>
      have hk : o' k = o k := by
        apply h k (le_refl _)
        simp [List.filter, hp]
      rw [hk, ih]
      intro j hj1 hj2
      simp only [if_true] at hj1 hj2
      apply h j (by omega)
      simp only [List.filter, hp, List.length_cons]
      omega

end Loop

theorem Interleaving.filter_first {α : Type} (p : α → Bool) {xs ys q : List α}
    (hq : Interleaving xs ys q) (hx : ∀ x ∈ xs, p x = true) (hy : ∀ y ∈ ys, p y = false) :
    q.filter p = xs ∧ q.filter (fun a => !p a) = ys := by
  induction hq with
  | done => simp
  | first x hq ih =>
    have hpx : p x = true := hx x (List.mem_cons_self _ _)
    have h := ih (fun a ha => hx a (List.mem_cons_of_mem _ ha)) hy
    simp [List.filter, hpx, h.1, h.2]
  | second y hq ih =>
    have hpy : p y = false := hy y (List.mem_cons_self _ _)
    have h := ih hx (fun a ha => hy a (List.mem_cons_of_mem _ ha))
    simp [List.filter, hpy, h.1, h.2]

theorem Interleaving.length_eq {α : Type} {xs ys q : List α} (hq : Interleaving xs ys q) :
    q.length = xs.length + ys.length := by
  induction hq with
  | done => rfl
  | first x hq ih => simp only [List.length_cons, ih]; omega
  | second y hq ih => simp only [List.length_cons, ih]; omega

theorem ofProducer_map {α : Type} (p : Bool) (l : List (Bool × α)) :
    ofProducer p (l.map Prod.fst) (l.map Prod.snd) =
      (l.filter (fun t => t.1 == p)).map Prod.snd := by
  have hzip : (l.map Prod.fst).zip (l.map Prod.snd) = l := by
    induction l with
    | nil => rfl
    | cons t rest ih => simp [ih]
  simp only [ofProducer, hzip]

/-- In an interleaving of two tagged sequences, the items with a producer's tag are that
producer's sequence. -/
theorem Interleaving.filter_tag {α : Type} {xs ys : List α} {tagged : List (Bool × α)}
    (hq : Interleaving (xs.map (fun a => (true, a))) (ys.map (fun a => (false, a))) tagged) :
    tagged.filter (fun t => t.1 == true) = xs.map (fun a => (true, a)) ∧
    tagged.filter (fun t => t.1 == false) = ys.map (fun a => (false, a)) := by
  have h := Interleaving.filter_first (fun t : Bool × α => t.1) hq
    (by intro t ht; obtain ⟨a, _, rfl⟩ := List.mem_map.1 ht; rfl)
    (by intro t ht; obtain ⟨a, _, rfl⟩ := List.mem_map.1 ht; rfl)
  have e1 : (fun t : Bool × α => t.1 == true) = (fun t => t.1) := by
    funext t; cases t.1 <;> rfl
  have e2 : (fun t : Bool × α => t.1 == false) = (fun t => !t.1) := by
    funext t; cases t.1 <;> rfl
  rw [e1, e2]
  exact h

theorem filter_snd_map {α : Type} (f : α → Bool) (l : List (Bool × α)) :
    (l.filter (fun t => f t.2)).map Prod.snd = (l.map Prod.snd).filter f := by
  induction l with
  | nil => rfl
  | cons t rest ih => cases h : f t.2 <;> simp [List.filter, h, ih]

theorem filter_snd_map_tag {α : Type} (f : α → Bool) (b : Bool) (l : List α) :
    ((l.map (fun a => (b, a))).filter (fun t => f t.2)).map Prod.snd = l.filter f := by
  induction l with
  | nil => rfl
  | cons a rest ih => cases h : f a <;> simp [List.filter, h, ih]

/-! ## The consumer loop: the claims -/

section Claims

variable {σ S T M : Type} [DecidableEq S] [DecidableEq T] [DecidableEq M]
  [Inhabited S] [Inhabited T] [Inhabited M]

/-- C1: when `Listen` processes a request (after any earlier requests `pre`) whose config has
a populated sub-config, exactly one backend `Send` is invoked for it, that of the first
populated sub-config in the order Slack, Teams, Mailgun; lower-precedence backends are not
invoked, however they are configured. -/
theorem C1_first_populated_backend_sent (Send : SendFn σ S T M)
    (pre : List (Notification S T M)) (n : Notification S T M) (st : State σ S T M) :
    (n.Jenkins.Spec.Notification.Slack ≠ default →
      sentServices (Listen Send (pre ++ [n]) st).events =
        sentServices (Listen Send pre st).events ++ [service.Slack]) ∧
    (n.Jenkins.Spec.Notification.Slack = default →
      n.Jenkins.Spec.Notification.Teams ≠ default →
      sentServices (Listen Send (pre ++ [n]) st).events =
        sentServices (Listen Send pre st).events ++ [service.Teams]) ∧
    (n.Jenkins.Spec.Notification.Slack = default →
      n.Jenkins.Spec.Notification.Teams = default →
      n.Jenkins.Spec.Notification.Mailgun ≠ default →
      sentServices (Listen Send (pre ++ [n]) st).events =
        sentServices (Listen Send pre st).events ++ [service.Mailgun]) := by
  have key : ∀ svc, selectService n.Jenkins.Spec.Notification = some svc →
      sentServices (Listen Send (pre ++ [n]) st).events =
        sentServices (Listen Send pre st).events ++ [svc] := by
    intro svc h
    rw [Listen_snoc, listenBody_selected Send n _ svc h]
    cases (Send svc n n.Jenkins.Spec.Notification (Listen Send pre st).world).1 <;>
      simp [sentServices_append, sentServices]
  refine ⟨fun h1 => key _ ?_, fun h1 h2 => key _ ?_, fun h1 h2 h3 => key _ ?_⟩
  · exact (selectService_eq_some_iff _ _).2 (Or.inl ⟨h1, rfl⟩)
  · exact (selectService_eq_some_iff _ _).2 (Or.inr (Or.inl ⟨h1, h2, rfl⟩))
  · exact (selectService_eq_some_iff _ _).2 (Or.inr (Or.inr ⟨h1, h2, h3, rfl⟩))

/-- Witness of C1: with all three sub-configs populated, only Slack's `Send` is invoked. -/
theorem C1_first_populated_backend_sent_witness :
    (sampleRequest "all" 1 2 3).Jenkins.Spec.Notification.Slack ≠ default ∧
    sentServices (Listen (scriptedSend firstCallFails)
        ([sampleRequest "empty" 0 0 0] ++ [sampleRequest "all" 1 2 3])
        { world := 0, events := [] }).events =
      sentServices (Listen (scriptedSend firstCallFails) [sampleRequest "empty" 0 0 0]
        { world := 0, events := [] }).events ++ [service.Slack] :=
  ⟨by decide,
   (C1_first_populated_backend_sent (scriptedSend firstCallFails) [sampleRequest "empty" 0 0 0]
      (sampleRequest "all" 1 2 3) { world := 0, events := [] }).1 (by decide)⟩

/-- C2: when `Listen` reaches a request whose three sub-configs all equal their zero values,
it makes exactly one logger call, at warning level, with a text naming the config's `Name`,
invokes no `Send` (trace and world are otherwise unchanged), and goes on with the requests
behind it. -/
theorem C2_unresolved_warns_and_continues (Send : SendFn σ S T M)
    (pre post : List (Notification S T M)) (n : Notification S T M) (st : State σ S T M)
    (hSlack : n.Jenkins.Spec.Notification.Slack = default)
    (hTeams : n.Jenkins.Spec.Notification.Teams = default)
    (hMailgun : n.Jenkins.Spec.Notification.Mailgun = default) :
    Listen Send (pre ++ n :: post) st =
      Listen Send post
        { world := (Listen Send pre st).world
          events := (Listen Send pre st).events ++
            [Event.info n.Logger log.Level.VWarn
              ("Notification service in `" ++ n.Jenkins.Spec.Notification.Name ++
                "` not found or not defined")] } ∧
    n.Jenkins.Spec.Notification.Name.toList <:+:
      ("Notification service in `" ++ n.Jenkins.Spec.Notification.Name ++
        "` not found or not defined").toList := by
  have h := (selectService_eq_none_iff n.Jenkins.Spec.Notification).2 ⟨hSlack, hTeams, hMailgun⟩
  constructor
  · rw [Listen_append]
    show Listen Send post (listenBody Send n (Listen Send pre st)) = _
    rw [listenBody_unresolved Send n _ h]
    rfl
  · exact ⟨"Notification service in `".toList, "` not found or not defined".toList, by
      simp [String.toList, String.data_append]⟩

/-- Witness of C2 on a queue whose second request has no sub-config populated. -/
theorem C2_unresolved_warns_and_continues_witness :
    ((sampleRequest "empty" 0 0 0).Jenkins.Spec.Notification.Slack = default ∧
     (sampleRequest "empty" 0 0 0).Jenkins.Spec.Notification.Teams = default ∧
     (sampleRequest "empty" 0 0 0).Jenkins.Spec.Notification.Mailgun = default) ∧
    (Listen (scriptedSend firstCallFails)
        ([sampleRequest "a" 1 0 0] ++ sampleRequest "empty" 0 0 0 :: [sampleRequest "b" 0 0 1])
        { world := 0, events := [] } =
      Listen (scriptedSend firstCallFails) [sampleRequest "b" 0 0 1]
        { world := (Listen (scriptedSend firstCallFails) [sampleRequest "a" 1 0 0]
            { world := 0, events := [] }).world
          events := (Listen (scriptedSend firstCallFails) [sampleRequest "a" 1 0 0]
            { world := 0, events := [] }).events ++
            [Event.info (sampleRequest "empty" 0 0 0).Logger log.Level.VWarn
              ("Notification service in `" ++
                (sampleRequest "empty" 0 0 0).Jenkins.Spec.Notification.Name ++
                "` not found or not defined")] } ∧
    (sampleRequest "empty" 0 0 0).Jenkins.Spec.Notification.Name.toList <:+:
      ("Notification service in `" ++
        (sampleRequest "empty" 0 0 0).Jenkins.Spec.Notification.Name ++
        "` not found or not defined").toList) :=
  ⟨⟨by decide, by decide, by decide⟩,
   C2_unresolved_warns_and_continues (scriptedSend firstCallFails) [sampleRequest "a" 1 0 0]
     [sampleRequest "b" 0 0 1] (sampleRequest "empty" 0 0 0) { world := 0, events := [] }
     (by decide) (by decide) (by decide)⟩

/-- C3: under every assignment `o` of outcomes to the `Send` calls, a delivery failure or an
unresolved config at request `n` does not stop `Listen`. The requests `post` behind `n` are
each handled as the spec prescribes (backend selected, `Send` invoked, outcome logged), with
the deliveries numbered on from `n`; when `n` has a backend, the run under the assignment
that differs only in that the delivery of `n` succeeds has the same events before and behind
`n`; and the loop receives every request of the closed channel and then returns. -/
theorem C3_failure_does_not_stop_listen (o : Nat → Option GoError)
    (pre post : List (Notification S T M)) (n : Notification S T M) (st : State Nat S T M) :
    (Listen (scriptedSend o) (pre ++ n :: post) st).events =
      st.events ++ specTrace o st.world pre ++
        specRequestEvents n (o (st.world + (pre.filter populated).length)) ++
        specTrace o
          (st.world + (pre.filter populated).length + (if populated n = true then 1 else 0))
          post ∧
    (populated n = true →
      (Listen
          (scriptedSend (Function.update o (st.world + (pre.filter populated).length) none))
          (pre ++ n :: post) st).events =
        st.events ++ specTrace o st.world pre ++ specRequestEvents n none ++
          specTrace o (st.world + (pre.filter populated).length + 1) post) ∧
    ListenRun (scriptedSend o) ((pre ++ n :: post).length + 1)
        { queue := pre ++ n :: post, closed := true } [] st =
      Run.returned (pre ++ n :: post) (Listen (scriptedSend o) (pre ++ n :: post) st) := by
  have split : ∀ f : Nat → Option GoError,
      (Listen (scriptedSend f) (pre ++ n :: post) st).events =
        st.events ++ specTrace f st.world pre ++
          specRequestEvents n (f (st.world + (pre.filter populated).length)) ++
          specTrace f
            (st.world + (pre.filter populated).length + (if populated n = true then 1 else 0))
            post := by
    intro f
    rw [(scripted_Listen_trace f (pre ++ n :: post) st).1, specTrace_append]
    simp only [specTrace, List.append_assoc]
  refine ⟨split o, fun hp => ?_, ?_⟩
  · generalize hk : st.world + (pre.filter populated).length = k
    have hpre : specTrace (Function.update o k none) st.world pre = specTrace o st.world pre := by
      apply specTrace_congr
      intro j _ hj
      rw [hk] at hj
      exact Function.update_noteq (by omega) _ _
    have hpost : specTrace (Function.update o k none) (k + 1) post =
        specTrace o (k + 1) post := by
      apply specTrace_congr
      intro j hj _
      exact Function.update_noteq (by omega) _ _
    have h := split (Function.update o k none)
    rw [hk, if_pos hp, Function.update_same, hpre, hpost] at h
    exact h
  · have h := ListenRun_closed (scriptedSend o) (pre ++ n :: post) 0 [] st
    simpa using h

/-- Witness of C3: the delivery of the second request fails (first `Send` call); the third
request is still delivered, as under the assignment where that delivery succeeds. -/
theorem C3_failure_does_not_stop_listen_witness :
    populated (sampleRequest "a" 1 0 0) = true ∧
    (Listen
        (scriptedSend (Function.update firstCallFails
          (({ world := 0, events := [] } : State Nat Nat Nat Nat).world +
            ([sampleRequest "empty" 0 0 0].filter populated).length) none))
        ([sampleRequest "empty" 0 0 0] ++ sampleRequest "a" 1 0 0 :: [sampleRequest "b" 0 2 0])
        { world := 0, events := [] }).events =
      ({ world := 0, events := [] } : State Nat Nat Nat Nat).events ++
        specTrace firstCallFails
          ({ world := 0, events := [] } : State Nat Nat Nat Nat).world
          [sampleRequest "empty" 0 0 0] ++
        specRequestEvents (sampleRequest "a" 1 0 0) none ++
        specTrace firstCallFails
          (({ world := 0, events := [] } : State Nat Nat Nat Nat).world +
            ([sampleRequest "empty" 0 0 0].filter populated).length + 1)
          [sampleRequest "b" 0 2 0] :=
  ⟨by decide,
   (C3_failure_does_not_stop_listen firstCallFails [sampleRequest "empty" 0 0 0]
      [sampleRequest "b" 0 2 0] (sampleRequest "a" 1 0 0) { world := 0, events := [] }).2.1
     (by decide)⟩

/-- C4: for a request with a selected backend, `Listen` makes exactly one logger call after
the `Send`: at warning level with the error's detail in the text when `Send` returned an
error, at debug level with the text "Sent notification" when it returned nil. -/
theorem C4_one_log_entry_after_delivery (Send : SendFn σ S T M)
    (pre : List (Notification S T M)) (n : Notification S T M) (st : State σ S T M)
    (svc : service) (hsel : selectService n.Jenkins.Spec.Notification = some svc) :
    (∀ err, (Send svc n n.Jenkins.Spec.Notification (Listen Send pre st).world).1 = some err →
      (Listen Send (pre ++ [n]) st).events =
        (Listen Send pre st).events ++
          [Event.send svc n n.Jenkins.Spec.Notification,
           Event.info n.Logger log.Level.VWarn
             ("Failed to send notifications. " ++ err.detail)] ∧
      err.detail.toList <:+ ("Failed to send notifications. " ++ err.detail).toList) ∧
    ((Send svc n n.Jenkins.Spec.Notification (Listen Send pre st).world).1 = none →
      (Listen Send (pre ++ [n]) st).events =
        (Listen Send pre st).events ++
          [Event.send svc n n.Jenkins.Spec.Notification,
           Event.info n.Logger log.Level.VDebug "Sent notification"]) := by
  constructor
  · intro err herr
    constructor
    · rw [Listen_snoc, listenBody_selected Send n _ svc hsel, herr]
    · exact ⟨"Failed to send notifications. ".toList, by
        simp [String.toList, String.data_append]⟩
  · intro hnil
    rw [Listen_snoc, listenBody_selected Send n _ svc hsel, hnil]

/-- Witness of C4 on a failing delivery: one warning entry carrying the error's detail. -/
theorem C4_one_log_entry_after_delivery_witness :
    (selectService (sampleRequest "a" 1 0 0).Jenkins.Spec.Notification = some service.Slack ∧
     (scriptedSend firstCallFails service.Slack (sampleRequest "a" 1 0 0)
        (sampleRequest "a" 1 0 0).Jenkins.Spec.Notification
        (Listen (scriptedSend firstCallFails) [sampleRequest "empty" 0 0 0]
          { world := 0, events := [] }).world).1 = some { detail := "connection refused" }) ∧
    (Listen (scriptedSend firstCallFails)
        ([sampleRequest "empty" 0 0 0] ++ [sampleRequest "a" 1 0 0])
        { world := 0, events := [] }).events =
      (Listen (scriptedSend firstCallFails) [sampleRequest "empty" 0 0 0]
        { world := 0, events := [] }).events ++
        [Event.send service.Slack (sampleRequest "a" 1 0 0)
           (sampleRequest "a" 1 0 0).Jenkins.Spec.Notification,
         Event.info (sampleRequest "a" 1 0 0).Logger log.Level.VWarn
           ("Failed to send notifications. " ++ "connection refused")] :=
  ⟨⟨by decide, rfl⟩,
   ((C4_one_log_entry_after_delivery (scriptedSend firstCallFails)
      [sampleRequest "empty" 0 0 0] (sampleRequest "a" 1 0 0) { world := 0, events := [] }
      service.Slack (by decide)).1 { detail := "connection refused" } rfl).1⟩

/-- C7: the requests passed to the backend `Send` calls that `Listen` makes are exactly the
requests of the queue with some populated sub-config, in arrival order, one call each. -/
theorem C7_sends_are_populated_requests_in_order (Send : SendFn σ S T M)
    (queue : List (Notification S T M)) (st : State σ S T M) :
    (sendCalls (Listen Send queue st).events).map (fun call => call.2.1) =
      (sendCalls st.events).map (fun call => call.2.1) ++ queue.filter populated := by
  induction queue generalizing st with
  | nil => simp [Listen]
  | cons n rest ih =>
    show (sendCalls (Listen Send rest (listenBody Send n st)).events).map _ = _
    rw [ih (listenBody Send n st), sendCalls_listenBody]
    cases h : selectService n.Jenkins.Spec.Notification with
    | none =>
      have hp : populated n = false := by
        cases hb : populated n with
        | false => rfl
        | true =>
          obtain ⟨svc, hs⟩ := (populated_iff_selectService n).1 hb
          rw [h] at hs; cases hs
      simp [List.filter, hp]
    | some svc =>
      have hp : populated n = true := (populated_iff_selectService n).2 ⟨svc, h⟩
      simp [List.filter, hp]

/-- C10: for a request with a selected backend, `Listen` makes one `Send` call on that
backend, with the request taken from the queue and that request's own notification config
as arguments. -/
theorem C10_send_receives_request_and_config (Send : SendFn σ S T M)
    (pre : List (Notification S T M)) (n : Notification S T M) (st : State σ S T M)
    (svc : service) (hsel : selectService n.Jenkins.Spec.Notification = some svc) :
    sendCalls (Listen Send (pre ++ [n]) st).events =
      sendCalls (Listen Send pre st).events ++ [(svc, n, n.Jenkins.Spec.Notification)] ∧
    (Listen Send (pre ++ [n]) st).world =
      (Send svc n n.Jenkins.Spec.Notification (Listen Send pre st).world).2 := by
  constructor
  · rw [Listen_snoc, sendCalls_listenBody, hsel]
  · rw [Listen_snoc, listenBody_selected Send n _ svc hsel]
    cases (Send svc n n.Jenkins.Spec.Notification (Listen Send pre st).world).1 <;> rfl

/-- Witness of C10 on a request with only the Mailgun sub-config populated. -/
theorem C10_send_receives_request_and_config_witness :
    selectService (sampleRequest "m" 0 0 7).Jenkins.Spec.Notification = some service.Mailgun ∧
    sendCalls (Listen (scriptedSend firstCallFails)
        ([sampleRequest "a" 1 0 0] ++ [sampleRequest "m" 0 0 7])
        { world := 0, events := [] }).events =
      sendCalls (Listen (scriptedSend firstCallFails) [sampleRequest "a" 1 0 0]
        { world := 0, events := [] }).events ++
        [(service.Mailgun, sampleRequest "m" 0 0 7,
          (sampleRequest "m" 0 0 7).Jenkins.Spec.Notification)] :=
  ⟨by decide,
   (C10_send_receives_request_and_config (scriptedSend firstCallFails)
      [sampleRequest "a" 1 0 0] (sampleRequest "m" 0 0 7) { world := 0, events := [] }
      service.Mailgun (by decide)).1⟩

/-- C11: the backend `Listen` selects for a request depends only on which of the sub-configs
Slack, Teams, Mailgun are non-empty: two requests with the same emptiness pattern select the
same backend or are both unresolved, and have the same backends invoked, whatever their other
fields, the behaviour of the backends and the world. -/
theorem C11_selection_depends_on_emptiness_only (Send₁ Send₂ : SendFn σ S T M)
    (n₁ n₂ : Notification S T M) (w₁ w₂ : σ)
    (hpattern : emptinessPattern n₁.Jenkins.Spec.Notification =
      emptinessPattern n₂.Jenkins.Spec.Notification) :
    selectService n₁.Jenkins.Spec.Notification = selectService n₂.Jenkins.Spec.Notification ∧
    sentServices (Listen Send₁ [n₁] { world := w₁, events := [] }).events =
      sentServices (Listen Send₂ [n₂] { world := w₂, events := [] }).events := by
  have hsel := selectService_congr _ _ hpattern
  refine ⟨hsel, ?_⟩
  show sentServices (listenBody Send₁ n₁ _).events = sentServices (listenBody Send₂ n₂ _).events
  rw [sentServices_listenBody, sentServices_listenBody, hsel]

/-- Witness of C11: two requests that differ in name, sub-config values, backend outcomes and
world, but share the pattern (Slack empty, Teams and Mailgun populated). -/
theorem C11_selection_depends_on_emptiness_only_witness :
    emptinessPattern (sampleRequest "a" 0 2 3).Jenkins.Spec.Notification =
      emptinessPattern (sampleRequest "b" 0 7 9).Jenkins.Spec.Notification ∧
    selectService (sampleRequest "a" 0 2 3).Jenkins.Spec.Notification =
      selectService (sampleRequest "b" 0 7 9).Jenkins.Spec.Notification ∧
    sentServices (Listen (scriptedSend firstCallFails) [sampleRequest "a" 0 2 3]
        { world := 0, events := [] }).events =
      sentServices (Listen (scriptedSend (fun _ => none)) [sampleRequest "b" 0 7 9]
        { world := 5, events := [] }).events :=
  ⟨by decide,
   C11_selection_depends_on_emptiness_only (scriptedSend firstCallFails)
     (scriptedSend (fun _ => none)) (sampleRequest "a" 0 2 3) (sampleRequest "b" 0 7 9) 0 5
     (by decide)⟩

/-- C12: on a closed channel holding a finite queue, with backends whose `Send` returns,
`Listen` returns once the loop has run more steps than there are queued requests, having
received and handled every one of them; within fewer steps it has not returned and has handled
just the first requests. -/
theorem C12_listen_returns_after_draining (Send : SendFn σ S T M)
    (queue : List (Notification S T M)) (st : State σ S T M) :
    (∀ steps, queue.length < steps →
      ListenRun Send steps { queue := queue, closed := true } [] st =
        Run.returned queue (Listen Send queue st)) ∧
    (∀ steps, steps ≤ queue.length →
      ListenRun Send steps { queue := queue, closed := true } [] st =
        Run.running (queue.take steps) (Listen Send (queue.take steps) st)) := by
  constructor
  · intro steps hlt
    obtain ⟨extra, rfl⟩ : ∃ extra, steps = queue.length + 1 + extra :=
      ⟨steps - (queue.length + 1), by omega⟩
    rw [ListenRun_closed]
    rfl
  · intro steps hle
    have hlen : (queue.take steps).length = steps := by
      rw [List.length_take]; omega
    have h := ListenRun_prefix Send (queue.take steps) (queue.drop steps) true [] st
    rw [List.take_append_drop, hlen] at h
    rw [h]
    rfl

/-- Witness of C12 on a queue of two requests: three steps return, one step does not. -/
theorem C12_listen_returns_after_draining_witness :
    ([sampleRequest "a" 1 0 0, sampleRequest "empty" 0 0 0].length < 3 ∧
     ListenRun (scriptedSend firstCallFails) 3
        { queue := [sampleRequest "a" 1 0 0, sampleRequest "empty" 0 0 0], closed := true } []
        { world := 0, events := [] } =
      Run.returned [sampleRequest "a" 1 0 0, sampleRequest "empty" 0 0 0]
        (Listen (scriptedSend firstCallFails)
          [sampleRequest "a" 1 0 0, sampleRequest "empty" 0 0 0]
          { world := 0, events := [] })) ∧
    (1 ≤ [sampleRequest "a" 1 0 0, sampleRequest "empty" 0 0 0].length ∧
     ListenRun (scriptedSend firstCallFails) 1
        { queue := [sampleRequest "a" 1 0 0, sampleRequest "empty" 0 0 0], closed := true } []
        { world := 0, events := [] } =
      Run.running ([sampleRequest "a" 1 0 0, sampleRequest "empty" 0 0 0].take 1)
        (Listen (scriptedSend firstCallFails)
          ([sampleRequest "a" 1 0 0, sampleRequest "empty" 0 0 0].take 1)
          { world := 0, events := [] })) :=
  ⟨⟨by decide,
    (C12_listen_returns_after_draining (scriptedSend firstCallFails)
      [sampleRequest "a" 1 0 0, sampleRequest "empty" 0 0 0]
      { world := 0, events := [] }).1 3 (by decide)⟩,
   ⟨by decide,
    (C12_listen_returns_after_draining (scriptedSend firstCallFails)
      [sampleRequest "a" 1 0 0, sampleRequest "empty" 0 0 0]
      { world := 0, events := [] }).2 1 (by decide)⟩⟩

/-- C13: for every two producers' sequences `xs` and `ys` and every interleaving of them into
the queue (`tagged` records, for each position, which producer enqueued the request there;
the producers may enqueue equal requests), `Listen` receives and handles the requests so that
those of each producer come in the order that producer enqueued them, and so do the `Send`
calls made for them. -/
theorem C13_per_producer_order_preserved (Send : SendFn σ S T M)
    (xs ys : List (Notification S T M)) (tagged : List (Bool × Notification S T M)) (w : σ)
    (hqueue : Interleaving (xs.map (fun n => (true, n))) (ys.map (fun n => (false, n)))
      tagged) :
    ∃ handled st,
      ListenRun Send (xs.length + ys.length + 1)
        { queue := tagged.map Prod.snd, closed := true } []
        { world := w, events := [] } = Run.returned handled st ∧
      ofProducer true (tagged.map Prod.fst) handled = xs ∧
      ofProducer false (tagged.map Prod.fst) handled = ys ∧
      ofProducer true ((tagged.filter (fun t => populated t.2)).map Prod.fst)
          ((sendCalls st.events).map (fun call => call.2.1)) = xs.filter populated ∧
      ofProducer false ((tagged.filter (fun t => populated t.2)).map Prod.fst)
          ((sendCalls st.events).map (fun call => call.2.1)) = ys.filter populated := by
  have hf := Interleaving.filter_tag hqueue
  have hlen : (tagged.map Prod.snd).length = xs.length + ys.length := by
    have h := Interleaving.length_eq hqueue
    simpa using h
  have hsends : (sendCalls (Listen Send (tagged.map Prod.snd)
        { world := w, events := [] }).events).map (fun call => call.2.1) =
      (tagged.filter (fun t => populated t.2)).map Prod.snd := by
    rw [sendCalls_Listen_requests, filter_snd_map]
    simp [sendCalls]
  refine ⟨tagged.map Prod.snd, Listen Send (tagged.map Prod.snd) { world := w, events := [] },
    ?_, ?_, ?_, ?_, ?_⟩
  · have h := ListenRun_closed Send (tagged.map Prod.snd) 0 [] { world := w, events := [] }
    rw [hlen] at h
    simpa using h
  · rw [ofProducer_map, hf.1]
    simp [Function.comp_def]
  · rw [ofProducer_map, hf.2]
    simp [Function.comp_def]
  · rw [hsends, ofProducer_map, List.filter_comm, hf.1, filter_snd_map_tag]
  · rw [hsends, ofProducer_map, List.filter_comm, hf.2, filter_snd_map_tag]

/-- Witness of C13: both producers enqueue an equal request; the second producer's request
enters between the two of the first. -/
theorem C13_per_producer_order_preserved_witness :
    Interleaving
      ([sampleRequest "r" 1 0 0, sampleRequest "x2" 0 0 0].map (fun n => (true, n)))
      ([sampleRequest "r" 1 0 0].map (fun n => (false, n)))
      [(true, sampleRequest "r" 1 0 0), (false, sampleRequest "r" 1 0 0),
       (true, sampleRequest "x2" 0 0 0)] ∧
    ∃ handled st,
      ListenRun (scriptedSend firstCallFails)
        ([sampleRequest "r" 1 0 0, sampleRequest "x2" 0 0 0].length +
          [sampleRequest "r" 1 0 0].length + 1)
        { queue := [(true, sampleRequest "r" 1 0 0), (false, sampleRequest "r" 1 0 0),
            (true, sampleRequest "x2" 0 0 0)].map Prod.snd, closed := true } []
        { world := 0, events := [] } = Run.returned handled st ∧
      ofProducer true ([(true, sampleRequest "r" 1 0 0), (false, sampleRequest "r" 1 0 0),
          (true, sampleRequest "x2" 0 0 0)].map Prod.fst) handled =
        [sampleRequest "r" 1 0 0, sampleRequest "x2" 0 0 0] ∧
      ofProducer false ([(true, sampleRequest "r" 1 0 0), (false, sampleRequest "r" 1 0 0),
          (true, sampleRequest "x2" 0 0 0)].map Prod.fst) handled =
        [sampleRequest "r" 1 0 0] ∧
      ofProducer true (([(true, sampleRequest "r" 1 0 0), (false, sampleRequest "r" 1 0 0),
          (true, sampleRequest "x2" 0 0 0)].filter (fun t => populated t.2)).map Prod.fst)
          ((sendCalls st.events).map (fun call => call.2.1)) =
        [sampleRequest "r" 1 0 0, sampleRequest "x2" 0 0 0].filter populated ∧
      ofProducer false (([(true, sampleRequest "r" 1 0 0), (false, sampleRequest "r" 1 0 0),
          (true, sampleRequest "x2" 0 0 0)].filter (fun t => populated t.2)).map Prod.fst)
          ((sendCalls st.events).map (fun call => call.2.1)) =
        [sampleRequest "r" 1 0 0].filter populated :=
  ⟨Interleaving.first _ (Interleaving.second _ (Interleaving.first _ Interleaving.done)),
   C13_per_producer_order_preserved (scriptedSend firstCallFails)
     [sampleRequest "r" 1 0 0, sampleRequest "x2" 0 0 0] [sampleRequest "r" 1 0 0]
     [(true, sampleRequest "r" 1 0 0), (false, sampleRequest "r" 1 0 0),
      (true, sampleRequest "x2" 0 0 0)] 0
     (Interleaving.first _ (Interleaving.second _ (Interleaving.first _ Interleaving.done)))⟩

/-- C16: for every finite queue, the logger calls `Listen` makes are one per request, in the
order of the requests, each through the request's logger and of one of the three kinds
(unresolved-config warning, delivery-failure warning, delivery-success debug); so their number
is the queue's length. -/
theorem C16_one_log_entry_per_request (Send : SendFn σ S T M)
    (queue : List (Notification S T M)) (st : State σ S T M) :
    ∃ entries,
      logEntries (Listen Send queue st).events = logEntries st.events ++ entries ∧
      List.Forall₂ isLogEntryOf queue entries ∧
      entries.length = queue.length := by
  induction queue generalizing st with
  | nil => exact ⟨[], by simp [Listen], List.Forall₂.nil, rfl⟩
  | cons n rest ih =>
    obtain ⟨entry, he, hk⟩ := logEntries_listenBody Send n st
    obtain ⟨entries, hes, hall, hlen⟩ := ih (listenBody Send n st)
    refine ⟨entry :: entries, ?_, List.Forall₂.cons hk hall, by simp [hlen]⟩
    show logEntries (Listen Send rest (listenBody Send n st)).events = _
    rw [hes, he]
    simp

end Claims

/-- C17: for a Slack, Teams or Mailgun service, `notify` calls that service's `Send` exactly
once, with the arguments it was given, and returns exactly what `Send` returned (nil or the
same error, unwrapped); for any other service value it calls nothing and returns nil. -/
theorem C17_notify_returns_send_result {σ S T M : Type} (Send : SendFn σ S T M) (svc : service)
    (n : Notification S T M) (nc : v1alpha2.Notification S T M) (st : State σ S T M) :
    (svc = service.Slack ∨ svc = service.Teams ∨ svc = service.Mailgun →
      notify Send svc n nc st =
        ((Send svc n nc st.world).1,
         { world := (Send svc n nc st.world).2
           events := st.events ++ [Event.send svc n nc] })) ∧
    (svc ≠ service.Slack → svc ≠ service.Teams → svc ≠ service.Mailgun →
      notify Send svc n nc st = (none, st)) := by
  constructor
  · intro h
    rcases h with h | h | h <;> subst h <;> rfl
  · intro h1 h2 h3
    cases svc with
    | Slack => exact absurd rfl h1
    | Teams => exact absurd rfl h2
    | Mailgun => exact absurd rfl h3
    | other typeName => rfl

/-- Witness of C17: a failing Slack `Send`, and a service of another type. -/
theorem C17_notify_returns_send_result_witness :
    ((service.Slack = service.Slack ∨ service.Slack = service.Teams ∨
        service.Slack = service.Mailgun) ∧
     notify (scriptedSend firstCallFails) service.Slack (sampleRequest "a" 1 0 0)
        (sampleRequest "a" 1 0 0).Jenkins.Spec.Notification { world := 0, events := [] } =
      ((scriptedSend firstCallFails service.Slack (sampleRequest "a" 1 0 0)
          (sampleRequest "a" 1 0 0).Jenkins.Spec.Notification 0).1,
       { world := (scriptedSend firstCallFails service.Slack (sampleRequest "a" 1 0 0)
           (sampleRequest "a" 1 0 0).Jenkins.Spec.Notification 0).2
         events := [] ++ [Event.send service.Slack (sampleRequest "a" 1 0 0)
           (sampleRequest "a" 1 0 0).Jenkins.Spec.Notification] })) ∧
    ((service.other "Discord" ≠ service.Slack ∧ service.other "Discord" ≠ service.Teams ∧
        service.other "Discord" ≠ service.Mailgun) ∧
     notify (scriptedSend firstCallFails) (service.other "Discord") (sampleRequest "a" 1 0 0)
        (sampleRequest "a" 1 0 0).Jenkins.Spec.Notification { world := 0, events := [] } =
      (none, { world := 0, events := [] })) :=
  ⟨⟨Or.inl rfl,
    (C17_notify_returns_send_result (scriptedSend firstCallFails) service.Slack
      (sampleRequest "a" 1 0 0) (sampleRequest "a" 1 0 0).Jenkins.Spec.Notification
      { world := 0, events := [] }).1 (Or.inl rfl)⟩,
   ⟨⟨by decide, by decide, by decide⟩,
    (C17_notify_returns_send_result (scriptedSend firstCallFails) (service.other "Discord")
      (sampleRequest "a" 1 0 0) (sampleRequest "a" 1 0 0).Jenkins.Spec.Notification
      { world := 0, events := [] }).2 (by decide) (by decide) (by decide)⟩⟩

end notifier
